import Mathlib

/-!
Verification development for the MNLI+HANS fine-tuning experiment pipeline
(`src/dataset/datamodule.py` and `src/model/nlitransformer.py`).

The Python code is shallowly embedded: datasets become lists of rows,
numpy arrays of per-sample values become lists, the tokenizer is an
abstract function parameter, numeric values are rationals, and fallible
operations return `Option` or `Except`.  A numpy mean over an empty
slice (which is NaN in the code) is modelled as `none`.
-/

namespace OptML

/-! Definitions -/

/-- Modelled from the spec: the 5-element sample-category enumeration
`SampleType` lives in `src/constants.py`, which is not part of the
provided sources.  The spec fixes its members as STANDARD, TRIVIAL,
NOISE, HEURISTIC_E, HEURISTIC_NE. -/
inductive SampleType
  | STANDARD
  | TRIVIAL
  | NOISE
  | HEURISTIC_E
  | HEURISTIC_NE
deriving DecidableEq, Repr, Inhabited

/-- Iteration order of the Python enum `SampleType`, as listed in the spec. -/
def SampleType.all : List SampleType :=
  [.STANDARD, .TRIVIAL, .NOISE, .HEURISTIC_E, .HEURISTIC_NE]

/-- Lower-cased enum-member name, Python's `sample_type.name.lower()`
from `BertForNLI._log_mnli_metrics_per_sample_type`. -/
def SampleType.lowerName : SampleType → String
  | .STANDARD => "standard"
  | .TRIVIAL => "trivial"
  | .NOISE => "noise"
  | .HEURISTIC_E => "heuristic_e"
  | .HEURISTIC_NE => "heuristic_ne"

/-- The sample-type computation of `ExperimentDataModule._process_mnli`
(datamodule.py lines 49-62).  `tokenize` stands for
`self.tokenizer(text, add_special_tokens=False)['input_ids']`.
`label = 0` encodes entailment. -/
def process_mnli (tokenize : String → List Nat)
    (premise hypothesis : String) (label : Nat) : SampleType :=
  if premise == hypothesis then
    if label == 0 then .TRIVIAL else .NOISE
  else
    let tokenized_premise := tokenize premise
    let tokenized_hypothesis := tokenize hypothesis
    if tokenized_hypothesis.all (fun token => tokenized_premise.contains token) then
      if label == 0 then .HEURISTIC_E else .HEURISTIC_NE
    else
      .STANDARD

/-- Spec-side classifier, written from the spec's words (section 4.1):
"if premise text equals hypothesis text, return TRIVIAL when
label==entailment else NOISE. Otherwise [...] if every hypothesis token
id appears in the premise token id multiset, return HEURISTIC_E when
label==entailment else HEURISTIC_NE; otherwise return STANDARD." -/
def classify_spec (tokenize : String → List Nat)
    (premise hypothesis : String) (label : Nat) : SampleType :=
  if premise = hypothesis then
    if label = 0 then .TRIVIAL else .NOISE
  else if ∀ t ∈ tokenize hypothesis, t ∈ tokenize premise then
    if label = 0 then .HEURISTIC_E else .HEURISTIC_NE
  else
    .STANDARD

/-- One processed dataset row, restricted to the columns the fusion
claims depend on.  Tokenized tensor columns are abstracted away; the
`label` column uses the integer encoding (MNLI: 0/1/2, HANS: 0/1). -/
structure ProcessedRow where
  premise : String
  hypothesis : String
  label : Nat
  type : SampleType
deriving DecidableEq, Repr

/-- The `datasets.Dataset.select(indices)` operation: pick the rows at
the given indices, raising (modelled as `none`) as soon as an index is
out of range. -/
def select {α : Type} (l : List α) : List Nat → Option (List α)
  | [] => some []
  | i :: is =>
    match l[i]?, select l is with
    | some a, some as => some (a :: as)
    | _, _ => none

/-- The `ClassLabel(num_classes=3, ...)` feature cast applied to one HANS
train row (datamodule.py lines 108-116): the identity map on rows, but a
cast error (modelled as `none`) when the label value is outside the
3-class schema. -/
def cast_label_to_3class (r : ProcessedRow) : Option ProcessedRow :=
  if r.label < 3 then some r else none

/-- The feature cast applied row by row across the HANS train dataset
(the `hans_dataset_train.map(lambda batch: batch, ..., features=features)`
call). -/
def cast_label_features : List ProcessedRow → Option (List ProcessedRow)
  | [] => some []
  | r :: rs =>
    match cast_label_to_3class r, cast_label_features rs with
    | some r', some rs' => some (r' :: rs')
    | _, _ => none

/-- The training-set construction of `ExperimentDataModule.setup`
(datamodule.py lines 101-121): when `num_hans_train_examples > 0`, cast
the HANS train labels into the 3-class schema, shuffle, select the first
`num_hans_train_examples` rows and concatenate them after MNLI train;
otherwise leave MNLI train untouched.  `shuffle` abstracts
`Dataset.shuffle()`. -/
def setup_fused_train (mnli_train hans_train : List ProcessedRow)
    (shuffle : List ProcessedRow → List ProcessedRow)
    (num_hans_train_examples : Nat) : Option (List ProcessedRow) :=
  if 0 < num_hans_train_examples then
    match cast_label_features hans_train with
    | none => none
    | some hans_cast =>
      match select (shuffle hans_cast) (List.range num_hans_train_examples) with
      | none => none
      | some hans_selected => some (mnli_train ++ hans_selected)
  else
    some mnli_train

/-- One MNLI sample's epoch-end record: its tag, its per-sample focal
loss and the prediction/label pair (`true_preds` in `mnli_step` is the
0/1 indicator of `pred == label`). -/
structure MnliSample where
  type : SampleType
  loss : Rat
  pred : Nat
  label : Nat
deriving DecidableEq, Repr

/-- The correctness indicator `(preds == batch["labels"]).float()` from
`BertForNLI.mnli_step`, restricted to one sample. -/
def true_pred (s : MnliSample) : Rat :=
  if s.pred == s.label then 1 else 0

/-- A numpy `.mean()` over a list of values: `none` models the NaN that
numpy produces (with a warning) on an empty slice. -/
def meanQ (l : List Rat) : Option Rat :=
  if l.isEmpty then none else some (l.sum / l.length)

/-- Embedding of `BertForNLI._log_mnli_metrics_per_sample_type`
(nlitransformer.py lines 177-185): for every sample type,
unconditionally compute the mean loss and mean correctness over the mask
`types == sample_type.value` and emit both under the shown keys.  The
returned association list records every `self.log(...)` call in order; a
`none` value is the NaN logged for an empty mask. -/
def log_mnli_metrics_per_sample_type (pre : String)
    (samples : List MnliSample) : List (String × Option Rat) :=
  SampleType.all.flatMap fun sample_type =>
    let sub := samples.filter fun s => s.type == sample_type
    [(pre ++ "/mnli_" ++ sample_type.lowerName ++ "_loss",
        meanQ (sub.map MnliSample.loss)),
     (pre ++ "/mnli_" ++ sample_type.lowerName ++ "_accuracy",
        meanQ (sub.map true_pred))]

/-- Modelled from the spec: `HEURISTIC_TO_INTEGER` lives in
`src/constants.py`, which is not part of the provided sources.  The spec
fixes the heuristic enumeration as lexical_overlap, subsequence,
constituent, each mapped to a stable integer id. -/
def HEURISTIC_TO_INTEGER : List (String × Nat) :=
  [("lexical_overlap", 0), ("subsequence", 1), ("constituent", 2)]

/-- The `enumerate(["entailment", "non_entailment"])` targets of the
HANS epoch-end loop. -/
def label_descriptions : List (Nat × String) :=
  [(0, "entailment"), (1, "non_entailment")]

/-- One HANS sample's epoch-end record: prediction, label, heuristic id
and per-sample loss (the four concatenated arrays). -/
structure HansSample where
  pred : Nat
  label : Nat
  heuristic : Nat
  loss : Rat
deriving DecidableEq, Repr

/-- The body of the doubly-nested loop in `validation_epoch_end`
(nlitransformer.py lines 246-259) for one (target label, heuristic)
combination: build the mask
`(heuristics == heuristic_idx) & (labels == target_label)`; if it
selects nothing, `continue` (emit nothing); otherwise emit the mean loss
and the mean correctness over the mask. -/
def hans_combination_entry (samples : List HansSample)
    (target_label : Nat) (label_description : String)
    (heuristic_name : String) (heuristic_idx : Nat) :
    List (String × Rat) :=
  let sub := samples.filter fun s =>
    s.heuristic == heuristic_idx && s.label == target_label
  if sub.length = 0 then []
  else
    [("Valid/Hans_loss/" ++ label_description ++ "_" ++ heuristic_name,
        (sub.map HansSample.loss).sum / sub.length),
     ("Valid/Hans_acc/" ++ label_description ++ "_" ++ heuristic_name,
        (sub.map fun s => if s.pred == s.label then (1 : Rat) else 0).sum
          / sub.length)]

/-- The full doubly-nested emission loop of `validation_epoch_end`. -/
def hans_per_combination_logs (samples : List HansSample) :
    List (String × Rat) :=
  label_descriptions.flatMap fun td =>
    HEURISTIC_TO_INTEGER.flatMap fun hh =>
      hans_combination_entry samples td.1 td.2 hh.1 hh.2

/-- The debug-dump condition of `BertForNLI.training_step` (line 110)
and `validation_step` (line 129), the Python expression
`batch_idx == 0 or batch_idx == -1 and self.global_rank == 0 and
self.current_epoch in [0, 1]`, with Python's precedence (`and` binds
tighter than `or`). -/
def log_batch_condition (batch_idx : Int) (global_rank : Nat)
    (current_epoch : Nat) : Bool :=
  batch_idx == 0 ||
    (batch_idx == -1 && global_rank == 0 &&
      (current_epoch == 0 || current_epoch == 1))

/-- The warmup-length computation of `BertForNLI.configure_optimizers`
(nlitransformer.py lines 336-344): raise when both hyperparameters are
non-null; otherwise Python truthiness (`if self.hparams.warmup_steps:`)
picks the step count, then the ratio scaled by the total training steps,
and raises when neither test is truthy.  A null or zero value is falsy. -/
def configure_warmup (warmup_ratio warmup_steps : Option Rat)
    (train_steps : Rat) : Except String Rat :=
  if warmup_ratio.isSome && warmup_steps.isSome then
    .error "Either warmup_steps or warmup_ratio should be given, but not both."
  else if warmup_steps.getD 0 ≠ 0 then
    .ok (warmup_steps.getD 0)
  else if warmup_ratio.getD 0 ≠ 0 then
    .ok (train_steps * warmup_ratio.getD 0)
  else
    .error "Either warmup_steps or warmup_ratio should be given, but none were given."

/-- Python's substring test `needle in hay` on character lists. -/
def is_substring (needle : List Char) : List Char → Bool
  | [] => needle.isEmpty
  | c :: rest => needle.isPrefixOf (c :: rest) || is_substring needle rest

/-- Python's `nd in n` membership test for strings. -/
def py_in (needle hay : String) : Bool :=
  is_substring needle.data hay.data

/-- The `no_decay` exclusion list of `configure_optimizers`
(nlitransformer.py line 298). -/
def no_decay : List String := ["bias", "LayerNorm.weight"]

/-- One optimizer parameter group.  The `params` tensors are represented
by the parameter names that select them. -/
structure ParamGroup where
  name : String
  params : List String
  weight_decay : Rat
deriving DecidableEq, Repr

/-- The `optimizer_grouped_parameters` list of `configure_optimizers`
(nlitransformer.py lines 299-316): group "1_w-decay" holds the named
parameters whose name contains no exclusion-list entry and uses the
configured weight decay; group "2_no-decay" holds those whose name
contains one and uses weight decay 0.0. -/
def optimizer_grouped_parameters (named_parameters : List String)
    (weight_decay : Rat) : List ParamGroup :=
  [⟨"1_w-decay",
      named_parameters.filter fun n => !(no_decay.any fun nd => py_in nd n),
      weight_decay⟩,
   ⟨"2_no-decay",
      named_parameters.filter fun n => no_decay.any fun nd => py_in nd n,
      0⟩]

/-! Helper lemmas -/

lemma cast_label_features_of_valid (l : List ProcessedRow)
    (h : ∀ r ∈ l, r.label < 3) : cast_label_features l = some l := by
  induction l with
  | nil => rfl
  | cons r rs ih =>
    have hr : r.label < 3 := h r (by simp)
    have hrs : cast_label_features rs = some rs :=
      ih (fun x hx => h x (by simp [hx]))
    simp [cast_label_features, cast_label_to_3class, hr, hrs]

lemma cast_label_features_eq_some (l l' : List ProcessedRow)
    (h : cast_label_features l = some l') : l' = l := by
  induction l generalizing l' with
  | nil => simpa [cast_label_features] using h.symm
  | cons r rs ih =>
    by_cases hr : r.label < 3
    · cases hrs : cast_label_features rs with
      | none => simp [cast_label_features, cast_label_to_3class, hr, hrs] at h
      | some rs' =>
        have : r :: rs' = l' := by
          simpa [cast_label_features, cast_label_to_3class, hr, hrs] using h
        rw [← this, ih rs' hrs]
    · simp [cast_label_features, cast_label_to_3class, hr] at h

lemma select_of_bounds {α : Type} (l : List α) (idxs : List Nat)
    (h : ∀ i ∈ idxs, i < l.length) :
    ∃ res, select l idxs = some res ∧ res.length = idxs.length ∧
      ∀ a ∈ res, a ∈ l := by
  induction idxs with
  | nil => exact ⟨[], rfl, rfl, by simp⟩
  | cons i is ih =>
    have hi : i < l.length := h i (by simp)
    have ha : l[i]? = some l[i] := List.getElem?_eq_getElem hi
    obtain ⟨res, hres, hlen, hmem⟩ := ih (fun j hj => h j (by simp [hj]))
    refine ⟨l[i] :: res, ?_, by simp [hlen], ?_⟩
    · simp [select, ha, hres]
    · intro b hb
      rcases List.mem_cons.mp hb with hb | hb
      · exact hb ▸ List.getElem?_mem ha
      · exact hmem b hb

lemma select_of_out_of_range {α : Type} (l : List α) (idxs : List Nat)
    (h : ∃ i ∈ idxs, l.length ≤ i) : select l idxs = none := by
  induction idxs with
  | nil => simp at h
  | cons i is ih =>
    obtain ⟨j, hj, hje⟩ := h
    rcases List.mem_cons.mp hj with rfl | hj
    · have hnone : l[j]? = none := List.getElem?_eq_none hje
      cases hsel : select l is <;> simp [select, hnone, hsel]
    · have hnone : select l is = none := ih ⟨j, hj, hje⟩
      cases hget : l[i]? <;> simp [select, hnone, hget]

lemma select_mem {α : Type} (l : List α) (idxs : List Nat) (res : List α)
    (h : select l idxs = some res) : ∀ a ∈ res, a ∈ l := by
  induction idxs generalizing res with
  | nil =>
    intro a ha
    have : ([] : List α) = res := by simpa [select] using h
    simp [← this] at ha
  | cons i is ih =>
    intro a ha
    cases hget : l[i]? with
    | none => simp [select, hget] at h
    | some b =>
      cases hrest : select l is with
      | none => simp [select, hget, hrest] at h
      | some rest =>
        have hcons : b :: rest = res := by simpa [select, hget, hrest] using h
        rcases List.mem_cons.mp (hcons ▸ ha) with rfl | hmem
        · exact List.getElem?_mem hget
        · exact ih rest hrest a hmem

lemma sum_indicator_eq_count {α : Type} (p : α → Bool) (l : List α) :
    (l.map fun a => if p a then (1 : Rat) else 0).sum =
      ((l.filter p).length : Rat) := by
  induction l with
  | nil => simp
  | cons a t ih =>
    by_cases h : p a
    · simp only [List.map_cons, List.sum_cons, List.filter_cons, h,
        if_true, ih, List.length_cons]
      push_cast
      ring
    · simp [List.filter_cons, h, ih]

lemma SampleType.mem_all (st : SampleType) : st ∈ SampleType.all := by
  cases st <;> simp [SampleType.all]

lemma is_substring_iff_infix (needle hay : List Char) :
    is_substring needle hay = true ↔ needle <:+: hay := by
  induction hay with
  | nil =>
    simp [is_substring, List.isEmpty_iff]
  | cons c rest ih =>
    simp only [is_substring, Bool.or_eq_true, List.isPrefixOf_iff_prefix, ih,
      List.infix_cons_iff]

lemma py_in_iff (needle hay : String) :
    py_in needle hay = true ↔ needle.data <:+: hay.data :=
  is_substring_iff_infix needle.data hay.data

/-! Claim theorems -/

/-- Claim C1: for every MNLI sample (premise, hypothesis, label) the
sample classifier is total and returns exactly the tag demanded by the
spec's case split: TRIVIAL/NOISE on textual equality (by label),
HEURISTIC_E/HEURISTIC_NE on token containment (by label), STANDARD
otherwise. -/
theorem c1_sample_classifier (tokenize : String → List Nat)
    (premise hypothesis : String) (label : Nat) :
    process_mnli tokenize premise hypothesis label =
      classify_spec tokenize premise hypothesis label := by
  unfold process_mnli classify_spec
  by_cases hph : premise = hypothesis
  · simp [hph]
  · have hbe : (premise == hypothesis) = false := by
      simpa [beq_iff_eq] using hph
    simp only [hbe, Bool.false_eq_true, if_false, hph]
    by_cases hall : ∀ t ∈ tokenize hypothesis, t ∈ tokenize premise
    · have : (tokenize hypothesis).all
          (fun token => (tokenize premise).contains token) = true := by
        simpa [List.all_eq_true] using hall
      simp [this, hall]
    · have : (tokenize hypothesis).all
          (fun token => (tokenize premise).contains token) = false := by
        simpa [List.all_eq_true] using hall
      simp [this, hall]

/-- Claim C2 is false on the code: `_log_mnli_metrics_per_sample_type`
has no empty-mask guard, so on an epoch whose samples contain no TRIVIAL,
NOISE, HEURISTIC_E or HEURISTIC_NE sample it still emits those
categories' metrics, with the NaN (`none`) produced by the empty-slice
mean.  Concretely, one STANDARD sample with loss 1 and a correct
prediction yields ten emitted metrics, eight of them NaN. -/
theorem c2_empty_category_emits_nan :
    log_mnli_metrics_per_sample_type "Valid"
        [⟨.STANDARD, 1, 0, 0⟩] =
      [("Valid/mnli_standard_loss", some 1),
       ("Valid/mnli_standard_accuracy", some 1),
       ("Valid/mnli_trivial_loss", none),
       ("Valid/mnli_trivial_accuracy", none),
       ("Valid/mnli_noise_loss", none),
       ("Valid/mnli_noise_accuracy", none),
       ("Valid/mnli_heuristic_e_loss", none),
       ("Valid/mnli_heuristic_e_accuracy", none),
       ("Valid/mnli_heuristic_ne_loss", none),
       ("Valid/mnli_heuristic_ne_accuracy", none)] := by
  norm_num [log_mnli_metrics_per_sample_type, SampleType.all,
    SampleType.lowerName, meanQ, true_pred]
  decide

/-- Claim C3: with augmentation requested (`num_hans_train_examples > 0`,
within the available HANS-train size and with HANS labels in the 3-class
range), the fused training set has exactly `|MNLI-train| +
num_hans_train_examples` rows; with `num_hans_train_examples = 0` the
training set is exactly the original MNLI train split. -/
theorem c3_fused_train_size (mnli_train hans_train : List ProcessedRow)
    (shuffle : List ProcessedRow → List ProcessedRow)
    (hshuffle : ∀ l, (shuffle l).length = l.length)
    (hlab : ∀ r ∈ hans_train, r.label < 3)
    (n : Nat) :
    (n = 0 → setup_fused_train mnli_train hans_train shuffle n = some mnli_train) ∧
    (0 < n → n ≤ hans_train.length →
      ∃ fused, setup_fused_train mnli_train hans_train shuffle n = some fused ∧
        fused.length = mnli_train.length + n) := by
  constructor
  · intro hn
    simp [setup_fused_train, hn]
  · intro hnpos hnle
    have hcast : cast_label_features hans_train = some hans_train :=
      cast_label_features_of_valid hans_train hlab
    have hbounds : ∀ i ∈ List.range n, i < (shuffle hans_train).length := by
      intro i hi
      have : i < n := List.mem_range.mp hi
      have hsl : (shuffle hans_train).length = hans_train.length := hshuffle _
      omega
    obtain ⟨res, hres, hlen, -⟩ := select_of_bounds (shuffle hans_train) (List.range n) hbounds
    refine ⟨mnli_train ++ res, ?_, ?_⟩
    · simp [setup_fused_train, hnpos, hcast, hres]
    · simp [hlen]

/-- Claim C3 witness: a concrete instantiation with one MNLI row, two
HANS rows, identity shuffle and one requested HANS example. -/
theorem c3_fused_train_size_witness :
    (setup_fused_train
        [⟨"p", "h", 0, .STANDARD⟩]
        [⟨"a", "b", 0, .HEURISTIC_E⟩, ⟨"c", "d", 1, .HEURISTIC_NE⟩]
        id 0 = some [⟨"p", "h", 0, .STANDARD⟩]) ∧
    (∃ fused, setup_fused_train
        [⟨"p", "h", 0, .STANDARD⟩]
        [⟨"a", "b", 0, .HEURISTIC_E⟩, ⟨"c", "d", 1, .HEURISTIC_NE⟩]
        id 1 = some fused ∧ fused.length = 2) := by
  constructor
  · exact (c3_fused_train_size _ _ id (fun l => rfl) (by decide) 0).1 rfl
  · exact (c3_fused_train_size _ _ id (fun l => rfl) (by decide) 1).2
      (by decide) (by decide)

/-- Claim C4: requesting more HANS-train examples than the HANS-train
split holds makes `setup` fail (the `select(range(n))` raises an index
error, modelled as `none`); the request is never silently clamped. -/
theorem c4_overrequest_fails (mnli_train hans_train : List ProcessedRow)
    (shuffle : List ProcessedRow → List ProcessedRow)
    (hshuffle : ∀ l, (shuffle l).length = l.length)
    (n : Nat) (hn : hans_train.length < n) :
    setup_fused_train mnli_train hans_train shuffle n = none := by
  have hnpos : 0 < n := Nat.lt_of_le_of_lt (Nat.zero_le _) hn
  cases hcast : cast_label_features hans_train with
  | none => simp [setup_fused_train, hnpos, hcast]
  | some hans_cast =>
    have hlen : hans_cast = hans_train := cast_label_features_eq_some _ _ hcast
    have hsel : select (shuffle hans_cast) (List.range n) = none := by
      refine select_of_out_of_range _ _ ⟨hans_train.length, ?_, ?_⟩
      · exact List.mem_range.mpr hn
      · simp [hshuffle, hlen]
    simp [setup_fused_train, hnpos, hcast, hsel]

/-- Claim C4 witness: requesting 3 HANS examples from a 2-row HANS-train
split fails at setup. -/
theorem c4_overrequest_fails_witness :
    setup_fused_train
      [⟨"p", "h", 0, .STANDARD⟩]
      [⟨"a", "b", 0, .HEURISTIC_E⟩, ⟨"c", "d", 1, .HEURISTIC_NE⟩]
      id 3 = none :=
  c4_overrequest_fails _ _ id (fun l => rfl) 3 (by decide)

/-- Claim C5 counterexample: supplying exactly one of the two
hyperparameters — warmup_steps = 0, warmup_ratio null — raises the
"none were given" error, because the code tests Python truthiness rather
than presence; the claim promised no error whenever exactly one is
supplied. -/
theorem c5_warmup_zero_steps_counterexample :
    configure_warmup none (some 0) 100 =
      .error "Either warmup_steps or warmup_ratio should be given, but none were given." := by
  rfl

/-- Claim C5, amended: supplying both hyperparameters (both non-null) is
a fatal error; when exactly one is supplied with a nonzero value, no
error is raised and the warmup length is the supplied step count, or the
ratio times the total training steps; but presence is tested by numeric
truthiness, so a configuration whose supplied values are all zero or
null (including exactly one supplied as 0) raises the "none were given"
error. -/
theorem c5_warmup_exactly_one (warmup_ratio warmup_steps : Option Rat)
    (train_steps : Rat) :
    (warmup_ratio.isSome = true → warmup_steps.isSome = true →
      configure_warmup warmup_ratio warmup_steps train_steps =
        .error "Either warmup_steps or warmup_ratio should be given, but not both.") ∧
    (∀ s, warmup_steps = some s → s ≠ 0 → warmup_ratio = none →
      configure_warmup warmup_ratio warmup_steps train_steps = .ok s) ∧
    (∀ r, warmup_ratio = some r → r ≠ 0 → warmup_steps = none →
      configure_warmup warmup_ratio warmup_steps train_steps =
        .ok (train_steps * r)) ∧
    (warmup_ratio.getD 0 = 0 → warmup_steps.getD 0 = 0 →
      ∃ msg, configure_warmup warmup_ratio warmup_steps train_steps =
        .error msg) := by
  refine ⟨?_, ?_, ?_, ?_⟩
  · intro hr hs
    simp [configure_warmup, hr, hs]
  · intro s hs hnz hr
    simp [configure_warmup, hs, hnz, hr]
  · intro r hr hnz hs
    simp [configure_warmup, hs, hnz, hr]
  · intro hr hs
    by_cases hboth : warmup_ratio.isSome && warmup_steps.isSome
    · exact ⟨"Either warmup_steps or warmup_ratio should be given, but not both.",
        by simp [configure_warmup, hboth]⟩
    · exact ⟨"Either warmup_steps or warmup_ratio should be given, but none were given.",
        by simp [configure_warmup, hboth, hr, hs]⟩

/-- Claim C5 witness: warmup_steps = 2 alone gives warmup length 2;
warmup_ratio = 1/2 alone with 10 total steps gives 10 * (1/2); supplying
both raises the "not both" error. -/
theorem c5_warmup_exactly_one_witness :
    configure_warmup none (some 2) 10 = .ok 2 ∧
    configure_warmup (some (1/2)) none 10 = .ok (10 * (1/2)) ∧
    configure_warmup (some (1/2)) (some 2) 10 =
      .error "Either warmup_steps or warmup_ratio should be given, but not both." := by
  refine ⟨?_, ?_, ?_⟩
  · exact (c5_warmup_exactly_one none (some 2) 10).2.1 2 rfl (by norm_num) rfl
  · exact (c5_warmup_exactly_one (some (1/2)) none 10).2.2.1 (1/2) rfl
      (by norm_num) rfl
  · exact (c5_warmup_exactly_one (some (1/2)) (some 2) 10).1 rfl rfl

/-- Claim C6 is false on the code: because `and` binds tighter than
`or`, the debug dump fires on batch 0 of every epoch and on every rank
(epoch 2 on rank 3, epoch 7 on rank 0 shown here), while the
epoch-restricted conjunct only governs the dead `batch_idx == -1`
branch. -/
theorem c6_debug_dump_every_epoch :
    log_batch_condition 0 3 2 = true ∧
    log_batch_condition 0 0 7 = true ∧
    log_batch_condition (-1) 0 0 = true := by
  decide

/-- Claim C7: the HANS epoch-end loop ranges over exactly the 6
combinations of target label in 0, 1 and heuristic id in 0, 1, 2, and
for each combination it emits the mean loss and the mean accuracy over
the combination's mask exactly when the mask selects at least one
sample; an empty mask emits nothing. -/
theorem c7_hans_combination_guard (samples : List HansSample)
    (target_label heuristic_idx : Nat)
    (label_description heuristic_name : String) :
    (hans_per_combination_logs samples =
      hans_combination_entry samples 0 "entailment" "lexical_overlap" 0 ++
      hans_combination_entry samples 0 "entailment" "subsequence" 1 ++
      hans_combination_entry samples 0 "entailment" "constituent" 2 ++
      hans_combination_entry samples 1 "non_entailment" "lexical_overlap" 0 ++
      hans_combination_entry samples 1 "non_entailment" "subsequence" 1 ++
      hans_combination_entry samples 1 "non_entailment" "constituent" 2) ∧
    ((samples.filter fun s =>
        s.heuristic == heuristic_idx && s.label == target_label) = [] →
      hans_combination_entry samples target_label label_description
        heuristic_name heuristic_idx = []) ∧
    ((samples.filter fun s =>
        s.heuristic == heuristic_idx && s.label == target_label) ≠ [] →
      hans_combination_entry samples target_label label_description
          heuristic_name heuristic_idx =
        [("Valid/Hans_loss/" ++ label_description ++ "_" ++ heuristic_name,
            ((samples.filter fun s =>
                s.heuristic == heuristic_idx && s.label == target_label).map
              HansSample.loss).sum /
            ((samples.filter fun s =>
                s.heuristic == heuristic_idx && s.label == target_label).length :
              Rat)),
         ("Valid/Hans_acc/" ++ label_description ++ "_" ++ heuristic_name,
            (((samples.filter fun s =>
                  s.heuristic == heuristic_idx && s.label == target_label).filter
                fun s => s.pred == s.label).length : Rat) /
            ((samples.filter fun s =>
                s.heuristic == heuristic_idx && s.label == target_label).length :
              Rat))]) := by
  refine ⟨?_, ?_, ?_⟩
  · simp [hans_per_combination_logs, label_descriptions, HEURISTIC_TO_INTEGER,
      List.flatMap_cons, List.append_assoc]
  · intro hempty
    simp [hans_combination_entry, hempty]
  · intro hne
    have hlen : (samples.filter fun s =>
        s.heuristic == heuristic_idx && s.label == target_label).length ≠ 0 := by
      simpa [List.length_eq_zero] using hne
    simp only [hans_combination_entry, hlen, if_false,
      sum_indicator_eq_count (fun s : HansSample => s.pred == s.label)]

/-- Claim C7 witness: one HANS sample with heuristic 0 and label 0.  The
combination (label 0, heuristic 1) has an empty mask and emits nothing. -/
theorem c7_hans_combination_guard_witness :
    (([⟨0, 0, 0, 1⟩] : List HansSample).filter (fun s =>
        s.heuristic == 1 && s.label == 0) = [] →
      hans_combination_entry [⟨0, 0, 0, 1⟩] 0 "entailment" "subsequence" 1 = []) ∧
    (([⟨0, 0, 0, 1⟩] : List HansSample).filter (fun s =>
        s.heuristic == 1 && s.label == 0) = []) := by
  refine ⟨(c7_hans_combination_guard [⟨0, 0, 0, 1⟩] 0 1 "entailment"
    "subsequence").2.1, by decide⟩

/-- Claim C8: every HANS-train row injected into the fused training set
is carried over unchanged, so an original-entailment row (label 0) keeps
label 0 and every non-entailment row carries the single fixed value 1
(the MNLI "neutral" slot); in particular all injected labels lie in the
3-class MNLI schema. -/
theorem c8_injected_labels (mnli_train hans_train : List ProcessedRow)
    (shuffle : List ProcessedRow → List ProcessedRow)
    (hshuffle : ∀ l, List.Perm (shuffle l) l)
    (hlab : ∀ r ∈ hans_train, r.label = 0 ∨ r.label = 1)
    (n : Nat) (fused : List ProcessedRow)
    (hsetup : setup_fused_train mnli_train hans_train shuffle n = some fused) :
    ∃ injected, fused = mnli_train ++ injected ∧
      ∀ r ∈ injected, r ∈ hans_train ∧ (r.label = 0 ∨ r.label = 1) := by
  by_cases hnpos : 0 < n
  · cases hcast : cast_label_features hans_train with
    | none => simp [setup_fused_train, hnpos, hcast] at hsetup
    | some hans_cast =>
      have hceq : hans_cast = hans_train := cast_label_features_eq_some _ _ hcast
      cases hsel : select (shuffle hans_cast) (List.range n) with
      | none => simp [setup_fused_train, hnpos, hcast, hsel] at hsetup
      | some hans_selected =>
        have hfused : fused = mnli_train ++ hans_selected := by
          have := hsetup
          simp [setup_fused_train, hnpos, hcast, hsel] at this
          exact this.symm
        refine ⟨hans_selected, hfused, ?_⟩
        intro r hr
        have hmem_shuffled : r ∈ shuffle hans_cast :=
          select_mem _ _ _ hsel r hr
        have hmem : r ∈ hans_train :=
          hceq ▸ (hshuffle hans_cast).mem_iff.mp hmem_shuffled
        exact ⟨hmem, hlab r hmem⟩
  · have hn0 : n = 0 := Nat.eq_zero_of_not_pos hnpos
    have : fused = mnli_train := by
      have := hsetup
      simp [setup_fused_train, hn0] at this
      exact this.symm
    exact ⟨[], by simp [this], by simp⟩

/-- Claim C8 witness: with one MNLI row, a two-row HANS-train split
(one entailment, one non-entailment) and identity shuffle, the fused set
decomposes as the MNLI rows followed by injected rows that are original
HANS rows with labels in the 3-class schema. -/
theorem c8_injected_labels_witness :
    ∃ injected,
      ([⟨"p", "h", 0, .STANDARD⟩, ⟨"a", "b", 0, .HEURISTIC_E⟩,
          ⟨"c", "d", 1, .HEURISTIC_NE⟩] : List ProcessedRow) =
        [⟨"p", "h", 0, .STANDARD⟩] ++ injected ∧
      ∀ r ∈ injected,
        r ∈ ([⟨"a", "b", 0, .HEURISTIC_E⟩, ⟨"c", "d", 1, .HEURISTIC_NE⟩] :
            List ProcessedRow) ∧
        (r.label = 0 ∨ r.label = 1) :=
  c8_injected_labels
    [⟨"p", "h", 0, .STANDARD⟩]
    [⟨"a", "b", 0, .HEURISTIC_E⟩, ⟨"c", "d", 1, .HEURISTIC_NE⟩]
    id (fun l => List.Perm.refl l) (by decide) 2
    ([⟨"p", "h", 0, .STANDARD⟩, ⟨"a", "b", 0, .HEURISTIC_E⟩,
      ⟨"c", "d", 1, .HEURISTIC_NE⟩]) (by rfl)

/-- Claim C9: over every non-empty restricted mask, the emitted MNLI
per-category accuracy is the count of correct predictions divided by the
mask size and the emitted loss is the unweighted mean of the mask's
per-sample losses (both appear verbatim among the emitted metrics); a
mask of size 1 yields accuracy exactly 0 or exactly 1, on the MNLI side
and on the HANS side alike. -/
theorem c9_restricted_mask_numeric (pre : String) (mnli : List MnliSample)
    (st : SampleType) (hansl : List HansSample) (target_label heuristic_idx : Nat)
    (label_description heuristic_name : String) :
    ((pre ++ "/mnli_" ++ st.lowerName ++ "_loss",
        meanQ ((mnli.filter fun s => s.type == st).map MnliSample.loss)) ∈
      log_mnli_metrics_per_sample_type pre mnli) ∧
    ((pre ++ "/mnli_" ++ st.lowerName ++ "_accuracy",
        meanQ ((mnli.filter fun s => s.type == st).map true_pred)) ∈
      log_mnli_metrics_per_sample_type pre mnli) ∧
    ((mnli.filter fun s => s.type == st) ≠ [] →
      meanQ ((mnli.filter fun s => s.type == st).map true_pred) =
        some ((((mnli.filter fun s => s.type == st).filter fun s =>
              s.pred == s.label).length : Rat) /
            ((mnli.filter fun s => s.type == st).length : Rat)) ∧
      meanQ ((mnli.filter fun s => s.type == st).map MnliSample.loss) =
        some (((mnli.filter fun s => s.type == st).map MnliSample.loss).sum /
            ((mnli.filter fun s => s.type == st).length : Rat))) ∧
    ((mnli.filter fun s => s.type == st).length = 1 →
      meanQ ((mnli.filter fun s => s.type == st).map true_pred) = some 0 ∨
      meanQ ((mnli.filter fun s => s.type == st).map true_pred) = some 1) ∧
    ((hansl.filter fun s =>
        s.heuristic == heuristic_idx && s.label == target_label).length = 1 →
      ∃ loss_value acc_value,
        hans_combination_entry hansl target_label label_description
            heuristic_name heuristic_idx =
          [("Valid/Hans_loss/" ++ label_description ++ "_" ++ heuristic_name,
              loss_value),
           ("Valid/Hans_acc/" ++ label_description ++ "_" ++ heuristic_name,
              acc_value)] ∧
        (acc_value = 0 ∨ acc_value = 1)) := by
  refine ⟨?_, ?_, ?_, ?_, ?_⟩
  · simp only [log_mnli_metrics_per_sample_type, List.mem_flatMap]
    exact ⟨st, SampleType.mem_all st, by simp⟩
  · simp only [log_mnli_metrics_per_sample_type, List.mem_flatMap]
    exact ⟨st, SampleType.mem_all st, by simp⟩
  · intro hne
    have hmap : ((mnli.filter fun s => s.type == st).map true_pred) ≠ [] := by
      simpa using hne
    have hmap' : ((mnli.filter fun s => s.type == st).map MnliSample.loss) ≠ [] := by
      simpa using hne
    have h1 : ((mnli.filter fun s => s.type == st).map true_pred) =
        ((mnli.filter fun s => s.type == st).map fun s =>
          if s.pred == s.label then (1 : Rat) else 0) := rfl
    constructor
    · simp only [meanQ, List.isEmpty_iff, hmap, if_false, h1,
        sum_indicator_eq_count (fun s : MnliSample => s.pred == s.label),
        List.length_map]
      rw [if_neg (by simpa using hne)]
    · simp only [meanQ, List.isEmpty_iff, hmap', if_false, List.length_map]
  · intro hone
    obtain ⟨s, hs⟩ := List.length_eq_one.mp hone
    rw [hs]
    by_cases hcor : s.pred == s.label
    · right
      simp [meanQ, true_pred, hcor]
    · left
      simp [meanQ, true_pred, hcor]
  · intro hone
    obtain ⟨s, hs⟩ := List.length_eq_one.mp hone
    refine ⟨HansSample.loss s / 1, (if s.pred == s.label then (1 : Rat) else 0) / 1, ?_, ?_⟩
    · simp [hans_combination_entry, hs]
    · by_cases hcor : s.pred == s.label
      · right; simp [hcor]
      · left; simp [hcor]

/-- Claim C9 witness: a single STANDARD MNLI sample predicted correctly
gives category accuracy exactly 1, and a single HANS sample in its
combination gives accuracy exactly 0 or 1. -/
theorem c9_restricted_mask_numeric_witness :
    (([⟨SampleType.STANDARD, 1, 0, 0⟩] : List MnliSample).filter
        (fun s => s.type == SampleType.STANDARD)).length = 1 ∧
    (meanQ ((([⟨SampleType.STANDARD, 1, 0, 0⟩] : List MnliSample).filter
        (fun s => s.type == SampleType.STANDARD)).map true_pred) = some 0 ∨
     meanQ ((([⟨SampleType.STANDARD, 1, 0, 0⟩] : List MnliSample).filter
        (fun s => s.type == SampleType.STANDARD)).map true_pred) = some 1) ∧
    (∃ loss_value acc_value,
      hans_combination_entry [⟨0, 0, 0, 1⟩] 0 "entailment" "lexical_overlap" 0 =
        [("Valid/Hans_loss/entailment_lexical_overlap", loss_value),
         ("Valid/Hans_acc/entailment_lexical_overlap", acc_value)] ∧
      (acc_value = 0 ∨ acc_value = 1)) := by
  refine ⟨by decide, ?_, ?_⟩
  · exact (c9_restricted_mask_numeric "Valid" [⟨SampleType.STANDARD, 1, 0, 0⟩]
      SampleType.STANDARD [⟨0, 0, 0, 1⟩] 0 0 "entailment"
      "lexical_overlap").2.2.2.1 (by decide)
  · exact (c9_restricted_mask_numeric "Valid" [⟨SampleType.STANDARD, 1, 0, 0⟩]
      SampleType.STANDARD [⟨0, 0, 0, 1⟩] 0 0 "entailment"
      "lexical_overlap").2.2.2.2 (by decide)

/-- Claim C10: the two optimizer parameter groups partition the model's
named parameters — every named parameter lands in exactly one group, in
the no-decay group exactly when its name contains "bias" or
"LayerNorm.weight" as a substring — and the no-decay group's weight
decay is 0. -/
theorem c10_param_groups_partition (named_parameters : List String)
    (weight_decay : Rat) (n : String) (hn : n ∈ named_parameters) :
    ∃ g_decay g_no_decay,
      optimizer_grouped_parameters named_parameters weight_decay =
        [g_decay, g_no_decay] ∧
      g_no_decay.weight_decay = 0 ∧
      (n ∈ g_no_decay.params ↔
        ("bias".data <:+: n.data ∨ "LayerNorm.weight".data <:+: n.data)) ∧
      (n ∈ g_decay.params ↔
        ¬("bias".data <:+: n.data ∨ "LayerNorm.weight".data <:+: n.data)) ∧
      (n ∈ g_decay.params ↔ ¬ n ∈ g_no_decay.params) := by
  refine ⟨_, _, rfl, rfl, ?_, ?_, ?_⟩
  · simp only [optimizer_grouped_parameters, List.mem_filter, hn, true_and,
      List.any_eq_true, no_decay]
    constructor
    · rintro ⟨nd, hnd, hin⟩
      rcases List.mem_cons.mp hnd with rfl | hnd
      · exact Or.inl ((py_in_iff _ _).mp hin)
      · rcases List.mem_cons.mp hnd with rfl | hnd
        · exact Or.inr ((py_in_iff _ _).mp hin)
        · simp at hnd
    · rintro (h | h)
      · exact ⟨"bias", by simp, (py_in_iff _ _).mpr h⟩
      · exact ⟨"LayerNorm.weight", by simp, (py_in_iff _ _).mpr h⟩
  · simp only [optimizer_grouped_parameters, List.mem_filter, hn, true_and,
      Bool.not_eq_true', ← Bool.not_eq_true, List.any_eq_true, no_decay]
    constructor
    · intro hnone h
      apply hnone
      rcases h with h | h
      · exact ⟨"bias", by simp, (py_in_iff _ _).mpr h⟩
      · exact ⟨"LayerNorm.weight", by simp, (py_in_iff _ _).mpr h⟩
    · rintro hnot ⟨nd, hnd, hin⟩
      rcases List.mem_cons.mp hnd with rfl | hnd
      · exact hnot (Or.inl ((py_in_iff _ _).mp hin))
      · rcases List.mem_cons.mp hnd with rfl | hnd
        · exact hnot (Or.inr ((py_in_iff _ _).mp hin))
        · simp at hnd
  · simp only [optimizer_grouped_parameters, List.mem_filter, hn, true_and,
      Bool.not_eq_true', ← Bool.not_eq_true]

/-- Claim C10 witness: "classifier.bias" goes to the no-decay group
(weight decay 0) and not to the decay group; the two groups are as
constructed. -/
theorem c10_param_groups_partition_witness :
    "classifier.bias" ∈ (["classifier.bias", "encoder.weight"] : List String) ∧
    ∃ g_decay g_no_decay,
      optimizer_grouped_parameters ["classifier.bias", "encoder.weight"] 1 =
        [g_decay, g_no_decay] ∧
      g_no_decay.weight_decay = 0 ∧
      ("classifier.bias" ∈ g_no_decay.params ↔
        ("bias".data <:+: "classifier.bias".data ∨
          "LayerNorm.weight".data <:+: "classifier.bias".data)) ∧
      ("classifier.bias" ∈ g_decay.params ↔
        ¬("bias".data <:+: "classifier.bias".data ∨
          "LayerNorm.weight".data <:+: "classifier.bias".data)) ∧
      ("classifier.bias" ∈ g_decay.params ↔
        ¬ "classifier.bias" ∈ g_no_decay.params) :=
  ⟨by simp,
   c10_param_groups_partition ["classifier.bias", "encoder.weight"] 1
     "classifier.bias" (by simp)⟩

end OptML
